import Mathlib

/-!
# TMOSon14 / osqpOptimization.cpp

Shallow embedding of `optimizationWithOsqp` (src/TMOSon14/osqpOptimization.cpp).

* Pixel samples (`float`) and solver scalars (`c_float`, `double` literals) are kept abstract:
  the floating-point operations the function performs are the fields of `Arith`, so every
  statement below holds for whatever those operations compute.
* `getHessianTriplets`, `convert`, `csc_matrix`, `osqp_setup`, `osqp_solve` and the workspace are
  declared in headers that are not part of the source file; they are the fields of `Solver`.
* Loop counters and indices are natural numbers (the loops count upwards from `0`); the
  largest index the function forms is below `3 * w1 * h1`. The two products that give the
  problem dimensions are also evaluated in 32-bit `int` arithmetic (`mainSize_int`,
  `numConstraints_int`), which agrees with the natural-number value as long as
  `3 * w1 * h1` fits an `int`.
-/

set_option autoImplicit false
set_option linter.unusedVariables false

namespace TMOSon14

/-! ## Scalars, images, triplets -/

/-- The floating-point operations used by `optimizationWithOsqp`.
`F` is the pixel type `float`, `D` the solver scalar (`double` / `c_float`). -/
structure Arith (F D : Type) where
  /-- The expression `(double)(x / 255.0)` for a `float` sample `x` (lines 63-76). -/
  div255 : F → D
  /-- Unary minus on `double` (lines 65, 70, 75). -/
  neg : D → D
  /-- The expression `1.0 - d` (lines 66, 71, 76). -/
  oneMinus : D → D
  /-- A numeric literal as a solver scalar (`1.0`, `1.0f`, `200`, `500`). -/
  lit : Nat → D
  /-- A numeric literal as a pixel value (`cv::Mat::ones`, `cv::Mat::zeros`). -/
  litF : Nat → F
  /-- The conversion applied when a `c_float` is stored into a `CV_32F` pixel (lines 139, 144). -/
  toFloat : D → F

/-- A single-channel `cv::Mat`; `at_ j i` is `.at<float>(j, i)` (row `j`, column `i`). -/
structure Mat (F : Type) where
  rows : Nat
  cols : Nat
  at_ : Nat → Nat → F

/-- The store `m.at<float>(j, i) = v`. -/
def Mat.set {F : Type} (m : Mat F) (j i : Nat) (v : F) : Mat F :=
  { m with at_ := fun j2 i2 => if j2 = j ∧ i2 = i then v else m.at_ j2 i2 }

/-- A constant plane: `cv::Mat::ones(h1, w1, CV_32F)` / `cv::Mat::zeros(h1, w1, CV_32F)`. -/
def Mat.fill {F : Type} (h1 w1 : Nat) (v : F) : Mat F :=
  { rows := h1, cols := w1, at_ := fun _ _ => v }

/-- The element type of the triplet vectors. Its declaration is in `constructQpMatrices.h`;
the three components are named after their position in the brace initialisers of lines 63-74. -/
structure triplet_t (D : Type) where
  first : Nat
  second : Nat
  value : D
  deriving DecidableEq

/-- A heap array returned by `c_malloc`: `size` elements, no cell holds a value until it is
stored to. `stores` lists the indices stored to, in program order. -/
structure CArray (D : Type) where
  size : Nat
  cell : Nat → Option D
  stores : List Nat

/-- A fresh array: `(c_float *)c_malloc(size * sizeof(c_float))`. -/
def c_malloc (D : Type) (size : Nat) : CArray D :=
  { size := size, cell := fun _ => none, stores := [] }

/-- The store `a[i] = v`. -/
def CArray.store {D : Type} (a : CArray D) (i : Nat) (v : D) : CArray D :=
  { a with cell := fun k => if k = i then some v else a.cell k, stores := a.stores ++ [i] }

/-- A counting loop `for (int i = 0; i < n; i++) body`. -/
def forLoop {σ : Type} (n : Nat) (body : Nat → σ → σ) (st : σ) : σ :=
  (List.range n).foldl (fun s i => body i s) st

/-! ## The constraint loop (lines 44-79) -/

/-- The variables the constraint loop updates. -/
structure ConstraintState (D : Type) where
  A_triplets : List (triplet_t D)
  l : CArray D
  u : CArray D
  counterA : Nat

/-- The state before the loop: empty `A_triplets`, fresh `l` and `u` of `h1 * w1 * 3`
elements, `counterA = 0` (lines 41-51). -/
def constraintInit (D : Type) (w1 h1 : Nat) : ConstraintState D :=
  { A_triplets := [], l := c_malloc D (h1 * w1 * 3), u := c_malloc D (h1 * w1 * 3), counterA := 0 }

/-- One pass through the body of the inner loop (lines 63-77), for row `j` and column `i`. -/
def constraintBody {F D : Type} (ar : Arith F D) (w1 h1 : Nat)
    (baseChannels detailChannels : Nat → Mat F) (j i : Nat)
    (st : ConstraintState D) : ConstraintState D :=
  -- channel 0
  let A_triplets := st.A_triplets ++ [⟨i + j * w1, st.counterA, ar.div255 ((detailChannels 0).at_ j i)⟩]
  let A_triplets := A_triplets ++ [⟨i + j * w1 + w1 * h1, st.counterA, ar.lit 1⟩]
  let l := st.l.store (j * w1 + i) (ar.neg (ar.div255 ((baseChannels 0).at_ j i)))
  let u := st.u.store (j * w1 + i) (ar.oneMinus (ar.div255 ((baseChannels 0).at_ j i)))
  let counterA := st.counterA + 1
  -- channel 1
  let A_triplets := A_triplets ++ [⟨i + j * w1, counterA, ar.div255 ((detailChannels 1).at_ j i)⟩]
  let A_triplets := A_triplets ++ [⟨i + j * w1 + w1 * h1, counterA, ar.lit 1⟩]
  let l := l.store (1 * h1 * w1 + j * w1 + i) (ar.neg (ar.div255 ((baseChannels 1).at_ j i)))
  let u := u.store (1 * h1 * w1 + j * w1 + i) (ar.oneMinus (ar.div255 ((baseChannels 1).at_ j i)))
  let counterA := counterA + 1
  -- channel 2
  let A_triplets := A_triplets ++ [⟨i + j * w1, counterA, ar.div255 ((detailChannels 2).at_ j i)⟩]
  let A_triplets := A_triplets ++ [⟨i + j * w1 + w1 * h1, counterA, ar.lit 1⟩]
  let l := l.store (2 * h1 * w1 + j * w1 + i) (ar.neg (ar.div255 ((baseChannels 2).at_ j i)))
  let u := u.store (2 * h1 * w1 + j * w1 + i) (ar.oneMinus (ar.div255 ((baseChannels 2).at_ j i)))
  let counterA := counterA + 1
  { A_triplets := A_triplets, l := l, u := u, counterA := counterA }

/-- The nested loops of lines 52-79, started from `st`. -/
def constraintLoopFrom {F D : Type} (ar : Arith F D) (w1 h1 : Nat)
    (baseChannels detailChannels : Nat → Mat F) (st : ConstraintState D) : ConstraintState D :=
  forLoop h1 (fun j st =>
    forLoop w1 (fun i st => constraintBody ar w1 h1 baseChannels detailChannels j i st) st) st

/-- Lines 41-79: allocation of `l`, `u`, then the constraint loop. -/
def constraintLoop {F D : Type} (ar : Arith F D) (w1 h1 : Nat)
    (baseChannels detailChannels : Nat → Mat F) : ConstraintState D :=
  constraintLoopFrom ar w1 h1 baseChannels detailChannels (constraintInit D w1 h1)

/-! ## The unpacking loop (lines 126-148) -/

/-- The variables the unpacking loop updates; `reads` lists the indices of
`work->solution->x` that were read, in program order. -/
structure UnpackState (F : Type) where
  s : Mat F
  t : Mat F
  lineCounter : Nat
  parametersCounterS : Nat
  parametersCounterT : Nat
  reads : List Nat

/-- The state before the loop (lines 129-131), for the planes `s` and `t` of lines 18-21. -/
def unpackInit {F : Type} (s t : Mat F) : UnpackState F :=
  { s := s, t := t, lineCounter := 0, parametersCounterS := 0, parametersCounterT := 0,
    reads := [] }

/-- One pass through the body of the loop of lines 132-148; `x` is `work->solution->x`. -/
def unpackBody {F D : Type} (ar : Arith F D) (w1 h1 : Nat) (x : Nat → D)
    (st : UnpackState F) : UnpackState F :=
  let st :=
    if st.lineCounter < w1 * h1 then
      { st with
        s := st.s.set (st.parametersCounterS / w1) (st.parametersCounterS % w1)
          (ar.toFloat (x st.parametersCounterS)),
        reads := st.reads ++ [st.parametersCounterS],
        parametersCounterS := st.parametersCounterS + 1 }
    else
      { st with
        t := st.t.set (st.parametersCounterT / w1) (st.parametersCounterT % w1)
          (ar.toFloat (x (w1 * h1 + st.parametersCounterT))),
        reads := st.reads ++ [w1 * h1 + st.parametersCounterT],
        parametersCounterT := st.parametersCounterT + 1 }
  { st with lineCounter := st.lineCounter + 1 }

/-- Lines 129-148: `for (int i = 0; i < mainSize; i++)` over the body above. -/
def unpackLoop {F D : Type} (ar : Arith F D) (w1 h1 mainSize : Nat) (x : Nat → D)
    (s t : Mat F) : UnpackState F :=
  forLoop mainSize (fun _ st => unpackBody ar w1 h1 x st) (unpackInit s t)

/-! ## The solver interface and the whole function -/

/-- What `convert(triplets, i, p, x)` leaves behind: the returned `int` and the three
output vectors. -/
structure ConvertOut (D : Type) where
  res : Int
  i : List Int
  p : List Int
  x : List D

/-- The header built by `csc_matrix(m, n, nzmax, x, i, p)`. -/
structure csc (D : Type) where
  m : Nat
  n : Nat
  nzmax : Nat
  x : List D
  i : List Int
  p : List Int

/-- The fields of `OSQPData` that lines 95-101 populate. -/
structure OSQPData (D : Type) where
  n : Nat
  m : Nat
  P : csc D
  q : CArray D
  A : csc D
  l : CArray D
  u : CArray D

/-- The collaborators of `optimizationWithOsqp`, none of which is defined in the source file.
`W` is the workspace type. `osqp_setup` is called with default settings and answers `none`
for `OSQP_NULL`; `solution work i` is `work->solution->x[i]`. -/
structure Solver (F D W : Type) where
  getHessianTriplets : Mat F → Mat F → Mat F → D → D → List (triplet_t D)
  convert : List (triplet_t D) → ConvertOut D
  osqp_setup : OSQPData D → Option W
  osqp_solve : W → W
  solution : W → Nat → D

/-- The heap objects the function obtains by hand: `q`, `l`, `u`, `settings`, `data` from
`c_malloc` (lines 36-42, 87, 94), the two matrix headers from `csc_matrix` (lines 97, 99), and
the workspace from a successful `osqp_setup` (line 118). -/
inductive Resource where
  | q | l | u | settings | data | P | A | work
  deriving DecidableEq

/-- Observable steps of one call. -/
inductive Event where
  | acquire (r : Resource)
  | release (r : Resource)
  | convert
  | setup
  | solve
  | readSolution (i : Nat)
  deriving DecidableEq

/-- The outcome of one call: the returned vector `sAndT`, the steps taken, and the problem
description that was passed to `osqp_setup`. -/
structure Run (F D : Type) where
  sAndT : List (Mat F)
  trace : List Event
  data : OSQPData D

/-- Lines 23-101 of `optimizationWithOsqp`: everything from the Hessian triplets to the
populated `OSQPData`. The value returned by `convert` is assigned to `res` twice and not read. -/
def problemData {F D W : Type} (ar : Arith F D) (sv : Solver F D W)
    (detailImage weight1 weight2 : Mat F) (baseChannels detailChannels : Nat → Mat F) :
    OSQPData D :=
  let w1 := detailImage.cols
  let h1 := detailImage.rows
  let r1 := ar.lit 200
  let r2 := ar.lit 500
  let mainSize := h1 * w1 * 2
  let P_triplets := sv.getHessianTriplets detailImage weight1 weight2 r1 r2
  let convP := sv.convert P_triplets
  let res := convP.res
  let P_nnz := convP.x.length
  let q := forLoop mainSize (fun i q => q.store i (ar.lit 1)) (c_malloc D mainSize)
  let cs := constraintLoop ar w1 h1 baseChannels detailChannels
  let convA := sv.convert cs.A_triplets
  let res := convA.res
  let A_nnz := convA.x.length
  let n := mainSize
  let m := h1 * w1 * 3
  { n := n, m := m,
    P := { m := n, n := n, nzmax := P_nnz, x := convP.x, i := convP.i, p := convP.p },
    q := q,
    A := { m := m, n := n, nzmax := A_nnz, x := convA.x, i := convA.i, p := convA.p },
    l := cs.l, u := cs.u }

/-- The function `optimizationWithOsqp` (lines 12-163). -/
def optimizationWithOsqp {F D W : Type} (ar : Arith F D) (sv : Solver F D W)
    (detailImage weight1 weight2 : Mat F) (baseChannels detailChannels : Nat → Mat F) :
    Run F D :=
  let w1 := detailImage.cols
  let h1 := detailImage.rows
  let sAndT : List (Mat F) := []
  let s := Mat.fill h1 w1 (ar.litF 1)
  let t := Mat.fill h1 w1 (ar.litF 0)
  let mainSize := h1 * w1 * 2
  let data := problemData ar sv detailImage weight1 weight2 baseChannels detailChannels
  let trace : List Event :=
    [.convert, .acquire .q, .acquire .l, .acquire .u, .convert, .acquire .settings,
     .acquire .data, .acquire .P, .acquire .A, .setup]
  match sv.osqp_setup data with
  | none => { sAndT := sAndT, trace := trace, data := data }
  | some work =>
    let trace := trace ++ [.acquire .work]
    let work := sv.osqp_solve work
    let trace := trace ++ [.solve]
    let up := unpackLoop ar w1 h1 mainSize (sv.solution work) s t
    let trace := trace ++ up.reads.map Event.readSolution
    let trace := trace ++ [.release .work, .release .A, .release .P, .release .data,
      .release .q, .release .l, .release .u, .release .settings]
    let sAndT := sAndT ++ [up.s]
    let sAndT := sAndT ++ [up.t]
    { sAndT := sAndT, trace := trace, data := data }

/-- The state in which the unpacking loop of a call leaves its variables when `osqp_setup`
answered the workspace `work` (lines 124-148). -/
def unpacked {F D W : Type} (ar : Arith F D) (sv : Solver F D W) (detailImage : Mat F)
    (work : W) : UnpackState F :=
  unpackLoop ar detailImage.cols detailImage.rows (detailImage.rows * detailImage.cols * 2)
    (sv.solution (sv.osqp_solve work))
    (Mat.fill detailImage.rows detailImage.cols (ar.litF 1))
    (Mat.fill detailImage.rows detailImage.cols (ar.litF 0))

/-- The resources still held after a sequence of steps: acquired and not released since. -/
def held (trace : List Event) : List Resource :=
  trace.foldl (fun acc e =>
    match e with
    | .acquire r => acc ++ [r]
    | .release r => acc.erase r
    | _ => acc) []

/-! ## The dimensions in `int` arithmetic -/

/-- The value an `int` holds after a computation whose exact result is `z`
(32 bits, two's complement). -/
def wrapInt (z : Int) : Int := (z + 2147483648) % 4294967296 - 2147483648

/-- The expression `h1 * w1 * 2` of line 24 in `int` arithmetic. -/
def mainSize_int (w1 h1 : Int) : Int := wrapInt (wrapInt (h1 * w1) * 2)

/-- The expression `h1 * w1 * 3` of lines 41, 42, 96 in `int` arithmetic. -/
def numConstraints_int (w1 h1 : Int) : Int := wrapInt (wrapInt (h1 * w1) * 3)

/-! ## Loop invariants -/

/-- State of a bound array of `3 * N` cells after `k` pixels: cell `c * N + p` holds
`val c p` once pixel `p` has been processed, every store so far was in range, and every
cell was stored to at most once. -/
def BoundsFilled {D : Type} (N k : Nat) (val : Nat → Nat → D) (a : CArray D) : Prop :=
  a.size = N * 3 ∧ (∀ r ∈ a.stores, r < 3 * N) ∧
  ∀ c p, c < 3 → p < N →
    a.cell (c * N + p) = (if p < k then some (val c p) else none) ∧
    a.stores.count (c * N + p) = (if p < k then 1 else 0)

/-- Invariant of the constraint loop after `k` pixels (in row-major order). -/
def ConstraintInv {F D : Type} (ar : Arith F D) (w1 h1 : Nat)
    (baseChannels detailChannels : Nat → Mat F) (k : Nat) (st : ConstraintState D) : Prop :=
  st.counterA = 3 * k ∧
  st.A_triplets.length = 6 * k ∧
  (∀ r, st.A_triplets.filter (fun t => decide (t.second = r)) =
    if r < 3 * k then
      [⟨r / 3, r, ar.div255 ((detailChannels (r % 3)).at_ (r / 3 / w1) (r / 3 % w1))⟩,
       ⟨r / 3 + w1 * h1, r, ar.lit 1⟩]
    else []) ∧
  BoundsFilled (h1 * w1) k
    (fun c p => ar.neg (ar.div255 ((baseChannels c).at_ (p / w1) (p % w1)))) st.l ∧
  BoundsFilled (h1 * w1) k
    (fun c p => ar.oneMinus (ar.div255 ((baseChannels c).at_ (p / w1) (p % w1)))) st.u

/-- Integer-valued stand-in for the floating-point operations: samples and scalars are integers,
`div255` keeps the sample, the other operations are the ones of `Int`. -/
def intArith : Arith Int Int :=
  { div255 := fun x => x, neg := fun d => -d, oneMinus := fun d => 1 - d,
    lit := fun n => (n : Int), litF := fun n => (n : Int), toFloat := fun d => d }

/-- Test channels: the sample of channel `c` at row `j`, column `i` is
`100 * (c + 1) + 10 * j + i`. -/
def testChannels (w1 h1 : Nat) (c : Nat) : Mat Int :=
  { rows := h1, cols := w1, at_ := fun j i => ((100 * (c + 1) + 10 * j + i : Nat) : Int) }

/-- A test image plane of the given size, all samples `50`. -/
def testImage (w1 h1 : Nat) : Mat Int := Mat.fill h1 w1 50

/-- A test solver. The workspace is the solution vector. `convert` answers the status `status`
and empty arrays, `osqp_setup` succeeds exactly when `ok`, and `osqp_solve` produces the
solution `x[i] = 1000 + i`. -/
def testSolver (ok : Bool) (status : Int) : Solver Int Int (Nat → Int) :=
  { getHessianTriplets := fun _ _ _ _ _ => [],
    convert := fun _ => { res := status, i := [], p := [], x := [] },
    osqp_setup := fun _ => if ok then some (fun _ => 0) else none,
    osqp_solve := fun _ => fun i => 1000 + (i : Int),
    solution := fun work i => work i }

/-- A run of the function on a `w1 x h1` test image with the test solver. -/
def testRun (w1 h1 : Nat) (ok : Bool) (status : Int) : Run Int Int :=
  optimizationWithOsqp intArith (testSolver ok status) (testImage w1 h1) (testImage w1 h1)
    (testImage w1 h1) (testChannels w1 h1) (testChannels w1 h1)

/-! ## Loops -/

theorem forLoop_zero {σ : Type} (body : Nat → σ → σ) (st : σ) : forLoop 0 body st = st := by
  simp [forLoop]

theorem forLoop_succ {σ : Type} (n : Nat) (body : Nat → σ → σ) (st : σ) :
    forLoop (n + 1) body st = body n (forLoop n body st) := by
  simp [forLoop, List.range_succ, List.foldl_append]

theorem forLoop_inv {σ : Type} (Inv : Nat → σ → Prop) (n : Nat) (body : Nat → σ → σ) (st0 : σ)
    (h0 : Inv 0 st0) (hstep : ∀ k st, k < n → Inv k st → Inv (k + 1) (body k st)) :
    Inv n (forLoop n body st0) := by
  have key : ∀ m, m ≤ n → Inv m (forLoop m body st0) := by
    intro m
    induction m with
    | zero => intro _; rw [forLoop_zero]; exact h0
    | succ m ih =>
      intro hm
      rw [forLoop_succ]
      exact hstep m _ (by omega) (ih (by omega))
  exact key n (Nat.le_refl n)

theorem nestedLoop_inv {σ : Type} (Inv : Nat → σ → Prop) (w h : Nat) (body : Nat → Nat → σ → σ)
    (st0 : σ) (h0 : Inv 0 st0)
    (hstep : ∀ j i st, j < h → i < w → Inv (j * w + i) st → Inv (j * w + i + 1) (body j i st)) :
    Inv (h * w) (forLoop h (fun j st => forLoop w (fun i st => body j i st) st) st0) := by
  refine forLoop_inv (fun j st => Inv (j * w) st) h _ st0 (by simpa using h0) ?_
  intro j st hj hst
  have hin := forLoop_inv (fun i st => Inv (j * w + i) st) w (fun i st => body j i st) st
    (by simpa using hst) (fun i st hi h => hstep j i st hj hi h)
  simpa [Nat.succ_mul] using hin

theorem pixel_lt {w h j i : Nat} (hj : j < h) (hi : i < w) : j * w + i < h * w := by
  have h1 : (j + 1) * w ≤ h * w := Nat.mul_le_mul_right w hj
  rw [Nat.succ_mul] at h1
  omega

theorem pixel_div {w j i : Nat} (hi : i < w) : (j * w + i) / w = j := by
  have hw : 0 < w := by omega
  rw [Nat.add_comm, Nat.add_mul_div_right _ _ hw, Nat.div_eq_of_lt hi, Nat.zero_add]

theorem pixel_mod {w j i : Nat} (hi : i < w) : (j * w + i) % w = i := by
  rw [Nat.add_comm, Nat.add_mul_mod_self_right, Nat.mod_eq_of_lt hi]

theorem boundsFilled_init (D : Type) (N : Nat) (val : Nat → Nat → D) :
    BoundsFilled N 0 val (c_malloc D (N * 3)) := by
  refine ⟨rfl, ?_, ?_⟩
  · intro r hr; simp [c_malloc] at hr
  · intro c p _ _; simp [c_malloc]

theorem boundsFilled_step {D : Type} {N k : Nat} {val : Nat → Nat → D} {a : CArray D}
    (ha : BoundsFilled N k val a) (hk : k < N) :
    BoundsFilled N (k + 1) val
      (((a.store k (val 0 k)).store (N + k) (val 1 k)).store (2 * N + k) (val 2 k)) := by
  obtain ⟨hsz, hmem, hcell⟩ := ha
  refine ⟨hsz, ?_, ?_⟩
  · intro r hr
    simp only [CArray.store, List.mem_append, List.mem_singleton] at hr
    rcases hr with ((hr | hr) | hr) | hr
    · exact hmem r hr
    · omega
    · omega
    · omega
  · intro c p hc hp
    obtain ⟨h1, h2⟩ := hcell c p hc hp
    simp only [CArray.store, List.count_append, List.count_singleton]
    rw [h1, h2]
    have hcases : c = 0 ∨ c = 1 ∨ c = 2 := by omega
    rcases hcases with rfl | rfl | rfl <;>
      (constructor <;>
        (try simp only [beq_iff_eq]
         split_ifs <;>
          first
          | rfl
          | omega
          | (have hpk : p = k := by omega
             subst hpk
             rfl)))

theorem constraintBody_inv {F D : Type} (ar : Arith F D) (w1 h1 : Nat)
    (baseChannels detailChannels : Nat → Mat F) (j i : Nat) (st : ConstraintState D)
    (hj : j < h1) (hi : i < w1)
    (hst : ConstraintInv ar w1 h1 baseChannels detailChannels (j * w1 + i) st) :
    ConstraintInv ar w1 h1 baseChannels detailChannels (j * w1 + i + 1)
      (constraintBody ar w1 h1 baseChannels detailChannels j i st) := by
  obtain ⟨hc, hlen, hfil, hl, hu⟩ := hst
  have hk : j * w1 + i < h1 * w1 := pixel_lt hj hi
  have hdiv : (j * w1 + i) / w1 = j := pixel_div hi
  have hmod : (j * w1 + i) % w1 = i := pixel_mod hi
  refine ⟨?_, ?_, ?_, ?_, ?_⟩
  · simp only [constraintBody, hc]; omega
  · simp only [constraintBody, List.length_append, List.length_singleton, hlen]; omega
  · intro r
    simp only [constraintBody, List.filter_append, hfil r, hc, List.filter_cons, List.filter_nil,
      decide_eq_true_eq]
    rw [Nat.add_comm i (j * w1)]
    generalize j * w1 + i = k at hdiv hmod
    have hcase : r < 3 * k ∨ r = 3 * k ∨ r = 3 * k + 1 ∨ r = 3 * k + 1 + 1 ∨ 3 * k + 3 ≤ r := by
      omega
    rcases hcase with h | h | h | h | h
    · have a0 : ¬ 3 * k = r := by omega
      have a1 : ¬ 3 * k + 1 = r := by omega
      have a2 : ¬ 3 * k + 1 + 1 = r := by omega
      have a3 : r < 3 * (k + 1) := by omega
      simp only [h, a0, a1, a2, a3, if_true, if_false, List.append_nil]
    · subst h
      have a1 : ¬ 3 * k + 1 = 3 * k := by omega
      have a2 : ¬ 3 * k + 1 + 1 = 3 * k := by omega
      have a3 : 3 * k < 3 * (k + 1) := by omega
      have a4 : ¬ 3 * k < 3 * k := by omega
      have e1 : 3 * k / 3 = k := by omega
      have e2 : 3 * k % 3 = 0 := by omega
      simp only [a1, a2, a3, a4, e1, e2, hdiv, hmod, if_true, if_false, List.append_nil,
        List.nil_append, List.singleton_append]
    · subst h
      have a0 : ¬ 3 * k = 3 * k + 1 := by omega
      have a2 : ¬ 3 * k + 1 + 1 = 3 * k + 1 := by omega
      have a3 : 3 * k + 1 < 3 * (k + 1) := by omega
      have a4 : ¬ 3 * k + 1 < 3 * k := by omega
      have e1 : (3 * k + 1) / 3 = k := by omega
      have e2 : (3 * k + 1) % 3 = 1 := by omega
      simp only [a0, a2, a3, a4, e1, e2, hdiv, hmod, if_true, if_false, List.append_nil,
        List.nil_append, List.singleton_append]
    · subst h
      have a0 : ¬ 3 * k = 3 * k + 1 + 1 := by omega
      have a1 : ¬ 3 * k + 1 = 3 * k + 1 + 1 := by omega
      have a3 : 3 * k + 1 + 1 < 3 * (k + 1) := by omega
      have a4 : ¬ 3 * k + 1 + 1 < 3 * k := by omega
      have e1 : (3 * k + 1 + 1) / 3 = k := by omega
      have e2 : (3 * k + 1 + 1) % 3 = 2 := by omega
      simp only [a0, a1, a3, a4, e1, e2, hdiv, hmod, if_true, if_false, List.append_nil,
        List.nil_append, List.singleton_append]
    · have a0 : ¬ 3 * k = r := by omega
      have a1 : ¬ 3 * k + 1 = r := by omega
      have a2 : ¬ 3 * k + 1 + 1 = r := by omega
      have a3 : ¬ r < 3 * (k + 1) := by omega
      have a4 : ¬ r < 3 * k := by omega
      simp only [a0, a1, a2, a3, a4, if_true, if_false, List.append_nil]
  · have h := boundsFilled_step hl hk
    simp only [hdiv, hmod] at h
    simpa only [constraintBody, Nat.one_mul, Nat.mul_assoc, Nat.add_assoc] using h
  · have h := boundsFilled_step hu hk
    simp only [hdiv, hmod] at h
    simpa only [constraintBody, Nat.one_mul, Nat.mul_assoc, Nat.add_assoc] using h

theorem constraintLoop_inv {F D : Type} (ar : Arith F D) (w1 h1 : Nat)
    (baseChannels detailChannels : Nat → Mat F) :
    ConstraintInv ar w1 h1 baseChannels detailChannels (h1 * w1)
      (constraintLoop ar w1 h1 baseChannels detailChannels) := by
  unfold constraintLoop constraintLoopFrom
  refine nestedLoop_inv (ConstraintInv ar w1 h1 baseChannels detailChannels) w1 h1
    (fun j i st => constraintBody ar w1 h1 baseChannels detailChannels j i st) _ ?_ ?_
  · refine ⟨rfl, rfl, ?_, boundsFilled_init D _ _, boundsFilled_init D _ _⟩
    intro r
    simp [constraintInit]
  · intro j i st hj hi hst
    exact constraintBody_inv ar w1 h1 baseChannels detailChannels j i st hj hi hst

theorem constraint_rows {F D : Type} (ar : Arith F D) (w h : Nat)
    (baseChannels detailChannels : Nat → Mat F) (r : Nat) :
    (constraintLoop ar w h baseChannels detailChannels).A_triplets.filter
        (fun t => decide (t.second = r)) =
      if r < 3 * (h * w) then
        [⟨r / 3, r, ar.div255 ((detailChannels (r % 3)).at_ (r / 3 / w) (r / 3 % w))⟩,
         ⟨r / 3 + w * h, r, ar.lit 1⟩]
      else [] :=
  (constraintLoop_inv ar w h baseChannels detailChannels).2.2.1 r

/-- The two indexings of the constraint loop, for pixel `(x, y)` and channel `c`: the two
triplets of that pixel and channel are the ones with constraint index `3 * (y * w + x) + c`,
while the bounds computed from its base sample are stored at `c * w * h + y * w + x`. -/
theorem constraint_index_and_bound_index {F D : Type} (ar : Arith F D) (w h : Nat)
    (baseChannels detailChannels : Nat → Mat F) (x y c : Nat)
    (hx : x < w) (hy : y < h) (hc : c < 3) :
    (constraintLoop ar w h baseChannels detailChannels).A_triplets.filter
        (fun t => decide (t.second = 3 * (y * w + x) + c)) =
      [⟨y * w + x, 3 * (y * w + x) + c, ar.div255 ((detailChannels c).at_ y x)⟩,
       ⟨w * h + y * w + x, 3 * (y * w + x) + c, ar.lit 1⟩] ∧
    (constraintLoop ar w h baseChannels detailChannels).l.cell (c * w * h + y * w + x) =
      some (ar.neg (ar.div255 ((baseChannels c).at_ y x))) ∧
    (constraintLoop ar w h baseChannels detailChannels).u.cell (c * w * h + y * w + x) =
      some (ar.oneMinus (ar.div255 ((baseChannels c).at_ y x))) := by
  have hp : y * w + x < h * w := pixel_lt hy hx
  obtain ⟨_, _, _, ⟨_, _, hlcell⟩, ⟨_, _, hucell⟩⟩ :=
    constraintLoop_inv ar w h baseChannels detailChannels
  have hidx : c * w * h + y * w + x = c * (h * w) + (y * w + x) := by ring
  refine ⟨?_, ?_, ?_⟩
  · have hr : 3 * (y * w + x) + c < 3 * (h * w) := by omega
    have e1 : (3 * (y * w + x) + c) / 3 = y * w + x := by omega
    have e2 : (3 * (y * w + x) + c) % 3 = c := by omega
    rw [constraint_rows, if_pos hr, e1, e2, pixel_div hx, pixel_mod hx,
      Nat.add_comm (y * w + x) (w * h), Nat.add_assoc]
  · have h1 := (hlcell c (y * w + x) hc hp).1
    rw [if_pos hp] at h1
    simp only [pixel_div hx, pixel_mod hx] at h1
    rw [hidx]; exact h1
  · have h1 := (hucell c (y * w + x) hc hp).1
    rw [if_pos hp] at h1
    simp only [pixel_div hx, pixel_mod hx] at h1
    rw [hidx]; exact h1

/-- C1 (evaluation on a 2 x 1 image, base and detail samples `100 * (c + 1) + x`):
the claim places the triplets of pixel `(x, y) = (1, 0)`, channel `0` at constraint index
`r = 0 * 2 * 1 + 0 * 2 + 1 = 1`. The loop gives them `counterA = 3` (they are the ones with
the detail sample `101`), the triplets with constraint index `1` are those of pixel `(0, 0)`,
channel `1` (detail sample `200`), while `l[1]` and `u[1]` come from the base sample `101` of
pixel `(1, 0)`, channel `0`. -/
theorem C1_constraint_index_differs_from_bound_index :
    (constraintLoop intArith 2 1 (testChannels 2 1) (testChannels 2 1)).A_triplets =
      [⟨0, 0, 100⟩, ⟨2, 0, 1⟩, ⟨0, 1, 200⟩, ⟨2, 1, 1⟩, ⟨0, 2, 300⟩, ⟨2, 2, 1⟩,
       ⟨1, 3, 101⟩, ⟨3, 3, 1⟩, ⟨1, 4, 201⟩, ⟨3, 4, 1⟩, ⟨1, 5, 301⟩, ⟨3, 5, 1⟩] ∧
    (constraintLoop intArith 2 1 (testChannels 2 1) (testChannels 2 1)).A_triplets.filter
      (fun t => decide (t.second = 0 * 2 * 1 + 0 * 2 + 1)) = [⟨0, 1, 200⟩, ⟨2, 1, 1⟩] ∧
    (constraintLoop intArith 2 1 (testChannels 2 1) (testChannels 2 1)).l.cell
      (0 * 2 * 1 + 0 * 2 + 1) = some (-101) ∧
    (constraintLoop intArith 2 1 (testChannels 2 1) (testChannels 2 1)).u.cell
      (0 * 2 * 1 + 0 * 2 + 1) = some (1 - 101) := by
  decide

/-! ## The call as a whole -/

theorem run_of_setup_fails {F D W : Type} (ar : Arith F D) (sv : Solver F D W)
    (detailImage weight1 weight2 : Mat F) (baseChannels detailChannels : Nat → Mat F)
    (hsetup : sv.osqp_setup
      (problemData ar sv detailImage weight1 weight2 baseChannels detailChannels) = none) :
    optimizationWithOsqp ar sv detailImage weight1 weight2 baseChannels detailChannels =
      { sAndT := [],
        trace := [.convert, .acquire .q, .acquire .l, .acquire .u, .convert, .acquire .settings,
          .acquire .data, .acquire .P, .acquire .A, .setup],
        data := problemData ar sv detailImage weight1 weight2 baseChannels detailChannels } := by
  unfold optimizationWithOsqp
  simp only [hsetup]

theorem run_of_setup_succeeds {F D W : Type} (ar : Arith F D) (sv : Solver F D W)
    (detailImage weight1 weight2 : Mat F) (baseChannels detailChannels : Nat → Mat F) (work : W)
    (hsetup : sv.osqp_setup
      (problemData ar sv detailImage weight1 weight2 baseChannels detailChannels) = some work) :
    optimizationWithOsqp ar sv detailImage weight1 weight2 baseChannels detailChannels =
      { sAndT := [(unpacked ar sv detailImage work).s, (unpacked ar sv detailImage work).t],
        trace := [.convert, .acquire .q, .acquire .l, .acquire .u, .convert, .acquire .settings,
          .acquire .data, .acquire .P, .acquire .A, .setup, .acquire .work, .solve] ++
          (unpacked ar sv detailImage work).reads.map Event.readSolution ++
          [.release .work, .release .A, .release .P, .release .data,
            .release .q, .release .l, .release .u, .release .settings],
        data := problemData ar sv detailImage weight1 weight2 baseChannels detailChannels } := by
  unfold optimizationWithOsqp
  simp only [hsetup, unpacked, List.nil_append, List.cons_append, List.append_assoc]

/-- C6: the call returns an empty vector exactly when `osqp_setup` answers `OSQP_NULL`; in that
case `osqp_solve` is not called and no entry of the solution vector is read; when
`osqp_setup` answers a workspace the call returns exactly two planes, `s` first and `t`
second, after calling `osqp_solve`. -/
theorem C6_empty_iff_setup_fails {F D W : Type} (ar : Arith F D) (sv : Solver F D W)
    (detailImage weight1 weight2 : Mat F) (baseChannels detailChannels : Nat → Mat F) :
    ((optimizationWithOsqp ar sv detailImage weight1 weight2 baseChannels detailChannels).sAndT
        = [] ↔
      sv.osqp_setup
        (problemData ar sv detailImage weight1 weight2 baseChannels detailChannels) = none) ∧
    (sv.osqp_setup
        (problemData ar sv detailImage weight1 weight2 baseChannels detailChannels) = none →
      Event.solve ∉
        (optimizationWithOsqp ar sv detailImage weight1 weight2 baseChannels detailChannels).trace ∧
      ∀ i, Event.readSolution i ∉
        (optimizationWithOsqp ar sv detailImage weight1 weight2 baseChannels detailChannels).trace) ∧
    (∀ work, sv.osqp_setup
        (problemData ar sv detailImage weight1 weight2 baseChannels detailChannels) = some work →
      (optimizationWithOsqp ar sv detailImage weight1 weight2 baseChannels detailChannels).sAndT
        = [(unpacked ar sv detailImage work).s, (unpacked ar sv detailImage work).t] ∧
      Event.solve ∈
        (optimizationWithOsqp ar sv detailImage weight1 weight2 baseChannels detailChannels).trace) := by
  refine ⟨?_, ?_, ?_⟩
  · cases hs : sv.osqp_setup
      (problemData ar sv detailImage weight1 weight2 baseChannels detailChannels) with
    | none => rw [run_of_setup_fails ar sv _ _ _ _ _ hs]; simp
    | some work => rw [run_of_setup_succeeds ar sv _ _ _ _ _ work hs]; simp
  · intro hs
    rw [run_of_setup_fails ar sv _ _ _ _ _ hs]
    simp
  · intro work hs
    rw [run_of_setup_succeeds ar sv _ _ _ _ _ work hs]
    simp

theorem C6_empty_iff_setup_fails_witness :
    ((testRun 2 1 false 0).sAndT = [] ↔
      (testSolver false 0).osqp_setup
        (problemData intArith (testSolver false 0) (testImage 2 1) (testImage 2 1)
          (testImage 2 1) (testChannels 2 1) (testChannels 2 1)) = none) ∧
    ((testSolver false 0).osqp_setup
        (problemData intArith (testSolver false 0) (testImage 2 1) (testImage 2 1)
          (testImage 2 1) (testChannels 2 1) (testChannels 2 1)) = none →
      Event.solve ∉ (testRun 2 1 false 0).trace ∧
      ∀ i, Event.readSolution i ∉ (testRun 2 1 false 0).trace) ∧
    (∀ work, (testSolver false 0).osqp_setup
        (problemData intArith (testSolver false 0) (testImage 2 1) (testImage 2 1)
          (testImage 2 1) (testChannels 2 1) (testChannels 2 1)) = some work →
      (testRun 2 1 false 0).sAndT
        = [(unpacked intArith (testSolver false 0) (testImage 2 1) work).s,
           (unpacked intArith (testSolver false 0) (testImage 2 1) work).t] ∧
      Event.solve ∈ (testRun 2 1 false 0).trace) :=
  C6_empty_iff_setup_fails intArith (testSolver false 0) (testImage 2 1) (testImage 2 1)
    (testImage 2 1) (testChannels 2 1) (testChannels 2 1)

theorem held_readSolution (acc : List Resource) (reads : List Nat) :
    (reads.map Event.readSolution).foldl (fun acc e =>
      match e with
      | .acquire r => acc ++ [r]
      | .release r => acc.erase r
      | _ => acc) acc = acc := by
  induction reads with
  | nil => rfl
  | cons i rest ih => simpa using ih

theorem held_of_setup_fails {F D W : Type} (ar : Arith F D) (sv : Solver F D W)
    (detailImage weight1 weight2 : Mat F) (baseChannels detailChannels : Nat → Mat F)
    (hsetup : sv.osqp_setup
      (problemData ar sv detailImage weight1 weight2 baseChannels detailChannels) = none) :
    held (optimizationWithOsqp ar sv detailImage weight1 weight2 baseChannels
      detailChannels).trace =
      [Resource.q, Resource.l, Resource.u, Resource.settings, Resource.data, Resource.P,
        Resource.A] := by
  rw [run_of_setup_fails ar sv _ _ _ _ _ hsetup]
  rfl

theorem held_of_setup_succeeds {F D W : Type} (ar : Arith F D) (sv : Solver F D W)
    (detailImage weight1 weight2 : Mat F) (baseChannels detailChannels : Nat → Mat F) (work : W)
    (hsetup : sv.osqp_setup
      (problemData ar sv detailImage weight1 weight2 baseChannels detailChannels) = some work) :
    held (optimizationWithOsqp ar sv detailImage weight1 weight2 baseChannels
      detailChannels).trace = [] := by
  rw [run_of_setup_succeeds ar sv _ _ _ _ _ work hsetup]
  simp only [held, List.foldl_append, held_readSolution]
  rfl

/-- C8 (evaluation on a 1 x 1 image whose solver setup fails): the call returns the empty
vector while still holding `q`, `l`, `u`, `settings`, `data` and the two matrix headers.
On the same image with a setup that succeeds the call returns holding nothing. -/
theorem C8_failure_path_keeps_resources :
    (testSolver false 0).osqp_setup
      (problemData intArith (testSolver false 0) (testImage 1 1) (testImage 1 1) (testImage 1 1)
        (testChannels 1 1) (testChannels 1 1)) = none ∧
    (testRun 1 1 false 0).sAndT.length = 0 ∧
    held (testRun 1 1 false 0).trace =
      [Resource.q, Resource.l, Resource.u, Resource.settings, Resource.data, Resource.P,
        Resource.A] ∧
    held (testRun 1 1 true 0).trace = [] :=
  ⟨rfl, by decide, by decide, by decide⟩

theorem wrapInt_of_range {z : Int} (h0 : 0 ≤ z) (h1 : z ≤ 2147483647) : wrapInt z = z := by
  unfold wrapInt
  omega

theorem forLoop_store_size {D : Type} (n : Nat) (v : D) (a : CArray D) :
    (forLoop n (fun i q => q.store i v) a).size = a.size := by
  refine forLoop_inv (fun _ q => q.size = a.size) n _ a rfl ?_
  intro k st _ hst
  exact hst

/-- C10 (counterexample): for a 32768 x 32768 image `2 * w * h` and `3 * w * h` exceed the
largest `int`, and the `int` expressions `h1 * w1 * 2` and `h1 * w1 * 3` evaluate to
`-2147483648` and `-1073741824`, not to `2 * w * h` and `3 * w * h`. -/
theorem C10_dimensions_wrap :
    (2147483647 : Int) < 2 * 32768 * 32768 ∧
    mainSize_int 32768 32768 = -2147483648 ∧
    numConstraints_int 32768 32768 = -1073741824 ∧
    mainSize_int 32768 32768 ≠ 2 * 32768 * 32768 ∧
    numConstraints_int 32768 32768 ≠ 3 * 32768 * 32768 := by
  decide

/-- C10 (amended): for every image size `w`, `h` with `3 * w * h ≤ 2147483647` the `int`
expressions `h1 * w1 * 2` and `h1 * w1 * 3` evaluate to `2 * w * h` and `3 * w * h`; these are
the `n` and `m` handed to the solver, the dimensions of the `P` and `A` headers, and the
numbers of elements of `q` and of `l`, `u`. -/
theorem C10_dimensions_in_int_range {F D W : Type} (ar : Arith F D) (sv : Solver F D W)
    (detailImage weight1 weight2 : Mat F) (baseChannels detailChannels : Nat → Mat F)
    (w h : Nat) (hw : detailImage.cols = w) (hh : detailImage.rows = h)
    (hrange : 3 * w * h ≤ 2147483647) :
    mainSize_int (w : Int) (h : Int) = ((2 * w * h : Nat) : Int) ∧
    numConstraints_int (w : Int) (h : Int) = ((3 * w * h : Nat) : Int) ∧
    (problemData ar sv detailImage weight1 weight2 baseChannels detailChannels).n = 2 * w * h ∧
    (problemData ar sv detailImage weight1 weight2 baseChannels detailChannels).m = 3 * w * h ∧
    (problemData ar sv detailImage weight1 weight2 baseChannels detailChannels).q.size
      = 2 * w * h ∧
    (problemData ar sv detailImage weight1 weight2 baseChannels detailChannels).l.size
      = 3 * w * h ∧
    (problemData ar sv detailImage weight1 weight2 baseChannels detailChannels).u.size
      = 3 * w * h := by
  subst hw hh
  have hN : ((detailImage.rows : Int) * (detailImage.cols : Int))
      = ((detailImage.cols * detailImage.rows : Nat) : Int) := by
    push_cast; ring
  have h3 : 3 * detailImage.cols * detailImage.rows
      = 3 * (detailImage.cols * detailImage.rows) := Nat.mul_assoc _ _ _
  have h2 : 2 * detailImage.cols * detailImage.rows
      = 2 * (detailImage.cols * detailImage.rows) := Nat.mul_assoc _ _ _
  rw [h3] at hrange
  have e1 : wrapInt ((detailImage.cols * detailImage.rows : Nat) : Int)
      = ((detailImage.cols * detailImage.rows : Nat) : Int) :=
    wrapInt_of_range (by omega) (by omega)
  obtain ⟨_, _, _, ⟨hlsz, _, _⟩, ⟨husz, _, _⟩⟩ :=
    constraintLoop_inv ar detailImage.cols detailImage.rows baseChannels detailChannels
  refine ⟨?_, ?_, ?_, ?_, ?_, ?_, ?_⟩
  · unfold mainSize_int
    rw [hN, h2, e1, wrapInt_of_range (by omega) (by omega)]
    push_cast; ring
  · unfold numConstraints_int
    rw [hN, h3, e1, wrapInt_of_range (by omega) (by omega)]
    push_cast; ring
  · show detailImage.rows * detailImage.cols * 2 = _
    ring
  · show detailImage.rows * detailImage.cols * 3 = _
    ring
  · show CArray.size (forLoop _ _ _) = _
    rw [forLoop_store_size]
    show detailImage.rows * detailImage.cols * 2 = _
    ring
  · show CArray.size (ConstraintState.l (constraintLoop _ _ _ _ _)) = _
    rw [hlsz]; ring
  · show CArray.size (ConstraintState.u (constraintLoop _ _ _ _ _)) = _
    rw [husz]; ring

theorem C10_dimensions_in_int_range_witness :
    ((testImage 640 480).cols = 640 ∧ (testImage 640 480).rows = 480 ∧
      3 * 640 * 480 ≤ 2147483647) ∧
    (mainSize_int ((640 : Nat) : Int) ((480 : Nat) : Int) = ((2 * 640 * 480 : Nat) : Int) ∧
    numConstraints_int ((640 : Nat) : Int) ((480 : Nat) : Int) = ((3 * 640 * 480 : Nat) : Int) ∧
    (problemData intArith (testSolver true 0) (testImage 640 480) (testImage 640 480)
      (testImage 640 480) (testChannels 640 480) (testChannels 640 480)).n = 2 * 640 * 480 ∧
    (problemData intArith (testSolver true 0) (testImage 640 480) (testImage 640 480)
      (testImage 640 480) (testChannels 640 480) (testChannels 640 480)).m = 3 * 640 * 480 ∧
    (problemData intArith (testSolver true 0) (testImage 640 480) (testImage 640 480)
      (testImage 640 480) (testChannels 640 480) (testChannels 640 480)).q.size
      = 2 * 640 * 480 ∧
    (problemData intArith (testSolver true 0) (testImage 640 480) (testImage 640 480)
      (testImage 640 480) (testChannels 640 480) (testChannels 640 480)).l.size
      = 3 * 640 * 480 ∧
    (problemData intArith (testSolver true 0) (testImage 640 480) (testImage 640 480)
      (testImage 640 480) (testChannels 640 480) (testChannels 640 480)).u.size
      = 3 * 640 * 480) :=
  ⟨⟨rfl, rfl, by decide⟩,
    C10_dimensions_in_int_range intArith (testSolver true 0) (testImage 640 480)
      (testImage 640 480) (testImage 640 480) (testChannels 640 480) (testChannels 640 480)
      640 480 rfl rfl (by decide)⟩

end TMOSon14
